import Mathlib

/-!
Verification of the daily job alert script (`daily_job_alert.py`).

The script fetches job postings from five job boards, deduplicates them
against a persisted seen-set, renders an HTML digest and emails it.  This
file embeds the pure core of the script in Lean: strings are modelled as
Lean strings (Python strings are sequences of code points, so the string
helpers below operate on the underlying character list), Python exceptions
become `Except`, the per-source network outcomes and the SMTP transport
outcome become explicit parameters, and the process exit code plus the
seen-set file write become an explicit `RunResult` record.
-/

/-! ## String helpers (Python string semantics over code-point lists) -/

/-- Python `p in s` restricted to a prefix test: `startsWithSeq p s` is true
when the character list `p` is a prefix of `s`. -/
def startsWithSeq : List Char → List Char → Bool
  | [], _ => true
  | _ :: _, [] => false
  | p :: ps, c :: cs => p == c && startsWithSeq ps cs

/-- Python substring containment `p in s` on character lists. -/
def containsSeq (p : List Char) : List Char → Bool
  | [] => p.isEmpty
  | c :: t => startsWithSeq p (c :: t) || containsSeq p t

/-- Python `pat in s` on strings. -/
def strContainsSub (s pat : String) : Bool :=
  containsSeq pat.data s.data

/-- Python `s.startswith(p)`. -/
def strStartsWith (s p : String) : Bool :=
  startsWithSeq p.data s.data

/-- Python `s[n:]` (drop the first `n` code points). -/
def strDrop (s : String) (n : Nat) : String :=
  ⟨s.data.drop n⟩

/-- Python `s.lower()`; case mapping modelled on the ASCII range, which is
what `Char.toLower` provides and all the hosts compared here use. -/
def strToLower (s : String) : String :=
  ⟨s.data.map Char.toLower⟩

/-- Python falsiness of a string: `not s` is true exactly on `""`. -/
def strIsEmpty (s : String) : Bool :=
  s.data.isEmpty

/-- Python `sep.join(xs)`. -/
def strIntercalate (sep : String) : List String → String
  | [] => ""
  | [x] => x
  | x :: y :: xs => x ++ sep ++ strIntercalate sep (y :: xs)

/-- Python code-point comparison of characters (`<`). -/
def charLt (a b : Char) : Bool :=
  decide (a.toNat < b.toNat)

/-- Python lexicographic `<` on strings, as a recursion over the
code-point lists: a strict prefix is smaller, otherwise the first
differing code point decides. -/
def charListLt : List Char → List Char → Bool
  | _, [] => false
  | [], _ :: _ => true
  | a :: as, b :: bs => charLt a b || (a == b && charListLt as bs)

/-- Python `a < b` on strings. -/
def strLt (a b : String) : Bool :=
  charListLt a.data b.data

/-- Python `a <= b` on strings (total order: `not (b < a)`). -/
def strLe (a b : String) : Bool :=
  !(strLt b a)

/-! ## Host extraction and free-to-apply classification

`apply_host_from_url` calls `urllib.parse.urlparse(url).netloc`.  The
model `urlsplitNetloc` below follows CPython's `urlsplit` netloc
extraction: strip leading C0-control/space characters, remove tab, CR and
LF everywhere, strip a syntactically valid scheme prefix, and take the
authority component after `//` up to the first `/`, `?` or `#`.  CPython
raises `ValueError` on a netloc with unbalanced square brackets, modelled
by the `Except.error` branch; the finer `ipaddress` validation of a
bracketed host is not modelled (it only turns some bracketed-host URLs
into parse failures, a path the error branch already represents). -/

/-- Characters allowed in a URL scheme after the first letter. -/
def schemeChar (c : Char) : Bool :=
  c.isAlphanum || c == '+' || c == '-' || c == '.'

/-- Strip a leading `scheme:` from the character list when the prefix
before the first `:` is a syntactically valid scheme. -/
def splitScheme (u : List Char) : List Char :=
  match u.findIdx? (fun c => c == ':') with
  | none => u
  | some i =>
    if 0 < i && (u.headD ' ').isAlpha && (u.take i).all schemeChar then
      u.drop (i + 1)
    else u

/-- The authority component: everything up to the first `/`, `?` or `#`. -/
def takeNetloc (u : List Char) : List Char :=
  u.takeWhile (fun c => !(c == '/' || c == '?' || c == '#'))

/-- Model of `urllib.parse.urlsplit(url).netloc` (see the section
comment above). -/
def urlsplitNetloc (url : String) : Except String String :=
  let u0 := (url.data.dropWhile (fun c => decide (c.toNat ≤ 32))).filter
      (fun c => !(c == '\t' || c == '\r' || c == '\n'))
  let u1 := splitScheme u0
  if u1.take 2 = ['/', '/'] then
    let netloc := takeNetloc (u1.drop 2)
    if (netloc.contains '[' && !netloc.contains ']') ||
        (netloc.contains ']' && !netloc.contains '[') then
      .error "Invalid IPv6 URL"
    else
      .ok ⟨netloc⟩
  else
    .ok ""

/-- `apply_host_from_url`: lowercased netloc with one leading `www.`
stripped; `""` when parsing raised. -/
def apply_host_from_url (url : String) : String :=
  match urlsplitNetloc url with
  | .error _ => ""
  | .ok netloc =>
    let host := strToLower netloc
    if strStartsWith host "www." then strDrop host 4 else host

/-- The `FREE_DOMAINS` allow-list (a Python `set`, iterated only through
`any`, so the order is irrelevant). -/
def FREE_DOMAINS : List String :=
  ["remotive.com", "remotive.io", "weworkremotely.com", "wellfound.com",
   "angel.co", "jobspresso.co", "indeed.com", "glassdoor.com",
   "builtin.com", "linkedin.com", "stackoverflow.com", "arbeitnow.com",
   "flexjobs.com", "remoteco.com", "workingnotworking.com"]

/-- `is_likely_free_apply`: empty host is not free; an allow-listed
substring wins; then the paid markers; otherwise free. -/
def is_likely_free_apply (url : String) : Bool :=
  let host := apply_host_from_url url
  if strIsEmpty host then false
  else if FREE_DOMAINS.any (fun d => strContainsSub host d) then true
  else if strContainsSub host "premium" || strContainsSub host "pay" ||
      strContainsSub host "subscription" then false
  else true

/-! ## The Job record -/

/-- The common job shape every fetcher produces. -/
structure Job where
  company : String
  title : String
  link : String
  keywords : List String
  skills : List String
  apply_host : String
  free_to_apply : Bool
deriving DecidableEq

/-! ## Source fetchers

Each fetcher is modelled on its post-parse logic: the input type is the
decoded payload (JSON records, or the elements selected from the HTML),
and the function mirrors the filtering and record construction.  The
network call and the fetcher's own `try`/`except` (any exception is
logged and becomes an empty result) are represented at the aggregation
level by a per-source `Except` outcome. -/

/-- A record of the Arbeitnow JSON `data` array; `Option` fields model
`dict.get` with the defaults applied in the code. -/
structure ArbeitnowRecord where
  title : Option String
  tags : List String
  company_name : Option String
  url : Option String
  location : Option String
  remote : Bool
deriving DecidableEq

/-- The frontend keyword filter of `fetch_arbeitnow_jobs`. -/
def frontendKeywords : List String :=
  ["frontend", "front-end", "react", "vue", "angular", "javascript",
   "web developer"]

/-- `fetch_arbeitnow_jobs`: keep frontend-related remote postings,
capped at 5. -/
def fetch_arbeitnow_jobs (data : List ArbeitnowRecord) : List Job :=
  (data.filterMap (fun job =>
    let title := job.title.getD ""
    if frontendKeywords.any (fun kw => strContainsSub (strToLower title) kw) ||
        frontendKeywords.any
          (fun kw => strContainsSub (strToLower (strIntercalate " " job.tags)) kw) then
      let company := job.company_name.getD "Unknown"
      let link := job.url.getD "#"
      let location := job.location.getD "Remote"
      if strContainsSub (strToLower location) "remote" || job.remote then
        some { company := company, title := title, link := link,
               keywords := ["remote", "frontend", "web"],
               skills := ["JavaScript", "React", "CSS"],
               apply_host := apply_host_from_url link,
               free_to_apply := is_likely_free_apply link }
      else none
    else none)).take 5

/-- A record of the Remotive JSON `jobs` array. -/
structure RemotiveRecord where
  title : Option String
  company_name : Option String
  url : Option String
deriving DecidableEq

/-- The keyword filter of `fetch_remotive_jobs`. -/
def remotiveKeywords : List String :=
  ["frontend", "front-end", "ui", "react", "vue", "web"]

/-- `fetch_remotive_jobs`: keep keyword-matching postings, capped at 5. -/
def fetch_remotive_jobs (data : List RemotiveRecord) : List Job :=
  (data.filterMap (fun job =>
    let title := job.title.getD ""
    if remotiveKeywords.any (fun w => strContainsSub (strToLower title) w) then
      let company := job.company_name.getD "Unknown"
      let link := job.url.getD "#"
      some { company := company, title := title, link := link,
             keywords := ["remote", "frontend", "web", "developer"],
             skills := ["React", "Vue", "CSS", "HTML"],
             apply_host := apply_host_from_url link,
             free_to_apply := is_likely_free_apply link }
    else none)).take 5

/-- A `.job` card scraped from Remote OK; `Option` models the three
`select_one` results that may be `None`. -/
structure RemoteOkCard where
  title : Option String
  company : Option String
  href : Option String
deriving DecidableEq

/-- `fetch_remoteok_jobs`: first 5 cards, kept only when title, company
and link are all present. -/
def fetch_remoteok_jobs (cards : List RemoteOkCard) : List Job :=
  (cards.take 5).filterMap (fun card =>
    match card.title, card.company, card.href with
    | some title, some company, some link0 =>
      let link := if strStartsWith link0 "http" then link0
                  else "https://remoteok.io" ++ link0
      some { company := company, title := title, link := link,
             keywords := ["remote", "frontend", "developer"],
             skills := ["JavaScript", "React", "HTML", "CSS"],
             apply_host := apply_host_from_url link,
             free_to_apply := is_likely_free_apply link }
    | _, _, _ => none)

/-- A `.job-card` scraped from JSJobbs; the code reads the three
selectors unconditionally (a missing one raises, which the fetcher's
`except` turns into an empty result, represented at the outcome level). -/
structure JsJobbsCard where
  title : String
  company : String
  href : String
deriving DecidableEq

/-- `fetch_jsjobbs_jobs`: first 5 cards, link made absolute. -/
def fetch_jsjobbs_jobs (cards : List JsJobbsCard) : List Job :=
  (cards.take 5).map (fun card =>
    let link := if strStartsWith card.href "http" then card.href
                else "https://jsjobbs.com" ++ card.href
    { company := card.company, title := card.title, link := link,
      keywords := ["remote", "frontend", "javascript"],
      skills := ["JavaScript", "React", "Vue", "Angular"],
      apply_host := apply_host_from_url link,
      free_to_apply := is_likely_free_apply link })

/-- A `li a` anchor inside a WeWorkRemotely `section.jobs`; `Option`
models the `get("href", ...)` default and the two optional spans. -/
structure WwrAnchor where
  href : Option String
  title : Option String
  company : Option String
deriving DecidableEq

/-- `fetch_wwr_jobs`: first 3 sections, first 5 anchors of each, empty
titles skipped, empty companies replaced by `"Unknown"`. -/
def fetch_wwr_jobs (sections : List (List WwrAnchor)) : List Job :=
  (sections.take 3).flatMap (fun sec =>
    (sec.take 5).filterMap (fun a =>
      let href0 := a.href.getD ""
      let href := if strStartsWith href0 "http" then href0
                  else "https://weworkremotely.com" ++ href0
      let title := a.title.getD ""
      let company := a.company.getD ""
      if strIsEmpty title then none
      else
        some { company := if strIsEmpty company then "Unknown" else company,
               title := title, link := href,
               keywords := ["frontend", "remote", "javascript"],
               skills := ["React", "Vue", "CSS", "HTML"],
               apply_host := apply_host_from_url href,
               free_to_apply := is_likely_free_apply href }))

/-! ## Aggregation -/

/-- The outcome of running one fetcher inside the `fetch_all_jobs` loop:
either its job list, or the message of the exception it raised. -/
abbrev SourceOutcome := Except String (List Job)

/-- The jobs a source contributes: an exception is caught, logged and
contributes nothing. -/
def outcomeJobs : SourceOutcome → List Job
  | .ok js => js
  | .error _ => []

/-- The `jobs.extend(fetched)` loop over the source list. -/
def collectJobs (outcomes : List SourceOutcome) : List Job :=
  outcomes.foldl (fun acc o => acc ++ outcomeJobs o) []

/-- The dedup loop of `fetch_all_jobs`: `seenLinks` is the within-run
accumulator, `seen` the persisted seen-set; a job is kept when its link
is in neither, and its link then joins `seenLinks`. -/
def dedupJobs (seen : List String) : List String → List Job → List Job
  | _, [] => []
  | seenLinks, j :: rest =>
    if !seenLinks.contains j.link && !seen.contains j.link then
      j :: dedupJobs seen (j.link :: seenLinks) rest
    else
      dedupJobs seen seenLinks rest

/-- `fetch_all_jobs`: collect all sources, fail when nothing at all was
fetched, otherwise dedup within the run and against the seen-set. -/
def fetch_all_jobs (outcomes : List SourceOutcome) (seen : List String) :
    Except String (List Job) :=
  let jobs := collectJobs outcomes
  if jobs.isEmpty then .error "No jobs found from any source."
  else .ok (dedupJobs seen [] jobs)

/-! ## Digest renderer -/

/-- The first component of the Python sort key `(not free_to_apply,
company)`, with `False < True` coded as `0 < 1`. -/
def boolKey (b : Bool) : Nat :=
  cond b 0 1

/-- The total preorder the stable sort uses: key tuples compared
lexicographically. -/
def jobLe (a b : Job) : Bool :=
  decide (boolKey a.free_to_apply < boolKey b.free_to_apply) ||
  ((boolKey a.free_to_apply == boolKey b.free_to_apply) &&
    strLe a.company b.company)

/-- `sorted(jobs, key=lambda j: (not j["free_to_apply"], j["company"]))`. -/
def sortJobs (jobs : List Job) : List Job :=
  jobs.mergeSort jobLe

/-- The badge text of a row. -/
def freeBadge (j : Job) : String :=
  if j.free_to_apply then "Free" else "Maybe Paid"

/-- The badge colour of a row. -/
def freeColor (j : Job) : String :=
  if j.free_to_apply then "#28a745" else "#ffc107"

/-- One `<tr>` block of the digest, numbered `i`. -/
def renderRow (i : Nat) (j : Job) : String :=
  "\n        <tr>\n            <td>" ++ toString i ++
  "</td>\n            <td><b>" ++ j.company ++
  "</b><br/><span style=\"color: #666;\">" ++ j.title ++
  "</span></td>\n            <td><a href=\"" ++ j.link ++
  "\" style=\"color: #007bff;\">Apply Now</a></td>\n            <td>" ++
  strIntercalate ", " j.keywords ++
  "</td>\n            <td>" ++ strIntercalate ", " j.skills ++
  "</td>\n            <td>" ++ j.apply_host ++
  "</td>\n            <td style=\"background-color: " ++ freeColor j ++
  "22; color: " ++ freeColor j ++ "; font-weight: bold;\">" ++
  freeBadge j ++ "</td>\n        </tr>\n        "

/-- The rendered rows, one per job, numbered from 1 in sorted order
(`enumerate(jobs, 1)`). -/
def htmlRows (jobs : List Job) : List String :=
  ((sortJobs jobs).enumFrom 1).map (fun p => renderRow p.1 p.2)

/-- The document up to the interpolated current date. -/
def htmlDocPre : String :=
  "\n    <html>\n    <head>\n        <style>\n            body \x7b font-family: Arial, sans-serif; margin: 20px; \x7d\n            h2 \x7b color: #333; \x7d\n            table \x7b border-collapse: collapse; width: 100%; \x7d\n            th \x7b background-color: #4CAF50; color: white; padding: 12px; text-align: left; \x7d\n            td \x7b padding: 10px; border-bottom: 1px solid #ddd; \x7d\n            tr:hover \x7b background-color: #f5f5f5; \x7d\n            a \x7b text-decoration: none; \x7d\n        </style>\n    </head>\n    <body>\n        <h2>Daily Global Frontend Developer Jobs ("

/-- Between the date and the interpolated job count. -/
def htmlMid1 : String :=
  ")</h2>\n        <p>Found <strong>"

/-- Between the job count and the interpolated rows. -/
def htmlMid2 : String :=
  "</strong> remote frontend opportunities today!</p>\n        <table>\n        <tr>\n            <th>#</th><th>Company / Role</th><th>Link</th>\n            <th>Keywords</th><th>Skills</th><th>Source</th><th>Apply Status</th>\n        </tr>\n        "

/-- After the rows. -/
def htmlPost : String :=
  "\n        </table>\n        <br/>\n        <p style=\"color: #666; font-size: 12px;\">\n            Tip: Focus on jobs marked \"Free\" for immediate applications without subscriptions.\n        </p>\n    </body>\n    </html>\n    "

/-- The `rows += ...` accumulation. -/
def concatRows (rows : List String) : String :=
  rows.foldl (fun a b => a ++ b) ""

/-- `create_html_table`.  The Python body interpolates
`datetime.now().strftime('%Y-%m-%d')`; that ambient read is made an
explicit `today` parameter here. -/
def create_html_table (today : String) (jobs : List Job) : String :=
  htmlDocPre ++ today ++ htmlMid1 ++ toString (sortJobs jobs).length ++
  htmlMid2 ++ concatRows (htmlRows jobs) ++ htmlPost

/-- Everything of the rendered document after the interpolated date:
a function of the job collection alone. -/
def htmlAfterDate (jobs : List Job) : String :=
  htmlMid1 ++ toString (sortJobs jobs).length ++ htmlMid2 ++
  concatRows (htmlRows jobs) ++ htmlPost

/-! ## Notifier and run controller -/

/-- What one `send_email` call did. -/
structure SendResult where
  succeeded : Bool
  connectAttempted : Bool
  previewPrinted : Bool
deriving DecidableEq

/-- Python falsiness of a credential read by `os.getenv`: unset (`None`)
or set to the empty string. -/
def falsyCred : Option String → Bool
  | none => true
  | some s => strIsEmpty s

/-- `send_email`: dry-run prints a preview and returns before any
network use; live mode fails on missing credentials before connecting,
otherwise the outcome is the transport's. -/
def send_email (dryRun : Bool) (user pw : Option String)
    (transportOk : Bool) : SendResult :=
  if dryRun then
    { succeeded := true, connectAttempted := false, previewPrinted := true }
  else if falsyCred user || falsyCred pw then
    { succeeded := false, connectAttempted := false, previewPrinted := false }
  else
    { succeeded := transportOk, connectAttempted := true,
      previewPrinted := false }

/-- The observable outcome of one run of `main`: the process exit code,
the seen-set file content when it was rewritten (`none` = untouched),
the rendered digest when `create_html_table` ran, and what the notifier
did. -/
structure RunResult where
  exitCode : Nat
  savedSeen : Option (List String)
  renderedHtml : Option String
  sendCalled : Bool
  connectAttempted : Bool
deriving DecidableEq

/-- `seen_jobs.update(new_links)` followed by `save_seen_jobs`: the
persisted set holds exactly the old links and the new ones. -/
def unionLinks (seen links : List String) : List String :=
  seen ++ links.filter (fun l => !seen.contains l)

/-- `main`: load the seen-set, fetch and aggregate (exit 1 on failure),
stop quietly when nothing new, render, send (exit 1 on failure), and
persist the enlarged seen-set only after a successful send. -/
def mainRun (outcomes : List SourceOutcome) (seen : List String)
    (today : String) (dryRun : Bool) (user pw : Option String)
    (transportOk : Bool) : RunResult :=
  match fetch_all_jobs outcomes seen with
  | .error _ =>
    { exitCode := 1, savedSeen := none, renderedHtml := none,
      sendCalled := false, connectAttempted := false }
  | .ok jobs =>
    if jobs.isEmpty then
      { exitCode := 0, savedSeen := none, renderedHtml := none,
        sendCalled := false, connectAttempted := false }
    else
      let html := create_html_table today jobs
      let s := send_email dryRun user pw transportOk
      if s.succeeded then
        { exitCode := 0,
          savedSeen := some (unionLinks seen (jobs.map (fun j => j.link))),
          renderedHtml := some html, sendCalled := true,
          connectAttempted := s.connectAttempted }
      else
        { exitCode := 1, savedSeen := none, renderedHtml := some html,
          sendCalled := true, connectAttempted := s.connectAttempted }

/-! ## Properties of the string order -/

theorem charLt_irrefl (a : Char) : charLt a a = false := by
  simp [charLt]

theorem charLt_asymm {a b : Char} (h : charLt a b = true) :
    charLt b a = false := by
  simp only [charLt, decide_eq_true_eq, decide_eq_false_iff_not] at *
  omega

theorem charLt_trans {a b c : Char} (h1 : charLt a b = true)
    (h2 : charLt b c = true) : charLt a c = true := by
  simp only [charLt, decide_eq_true_eq] at *
  omega

theorem charLt_connex {a b : Char} (h1 : charLt a b = false)
    (h2 : charLt b a = false) : a = b := by
  simp only [charLt, decide_eq_false_iff_not] at *
  have h : a.toNat = b.toNat := by omega
  have := congrArg Char.ofNat h
  rwa [Char.ofNat_toNat, Char.ofNat_toNat] at this

theorem charListLt_asymm : ∀ {a b : List Char},
    charListLt a b = true → charListLt b a = false
  | [], [], h => by simp [charListLt] at h
  | [], _ :: _, _ => by simp [charListLt]
  | _ :: _, [], h => by simp [charListLt] at h
  | a :: as, b :: bs, h => by
    simp only [charListLt, Bool.or_eq_true, Bool.and_eq_true, beq_iff_eq,
      Bool.or_eq_false_iff, Bool.and_eq_false_iff] at h ⊢
    rcases h with h | ⟨rfl, h⟩
    · refine ⟨charLt_asymm h, ?_⟩
      left
      simp only [beq_eq_false_iff_ne, ne_eq]
      intro hba
      subst hba
      rw [charLt_irrefl] at h
      exact Bool.false_ne_true h
    · exact ⟨charLt_irrefl a, Or.inr (charListLt_asymm h)⟩

theorem charListLt_trans : ∀ {a b c : List Char}, charListLt a b = true →
    charListLt b c = true → charListLt a c = true
  | _, _, [], _, h2 => by simp [charListLt] at h2
  | [], _ :: _, _ :: _, _, _ => by simp [charListLt]
  | _ :: _, [], _ :: _, h1, _ => by simp [charListLt] at h1
  | a :: as, b :: bs, c :: cs, h1, h2 => by
    simp only [charListLt, Bool.or_eq_true, Bool.and_eq_true, beq_iff_eq]
      at h1 h2 ⊢
    rcases h1 with h1 | ⟨rfl, h1⟩ <;> rcases h2 with h2 | ⟨rfl, h2⟩
    · exact Or.inl (charLt_trans h1 h2)
    · exact Or.inl h1
    · exact Or.inl h2
    · exact Or.inr ⟨rfl, charListLt_trans h1 h2⟩

theorem charListLt_connex : ∀ {a b : List Char}, charListLt a b = false →
    charListLt b a = false → a = b
  | [], [], _, _ => rfl
  | [], _ :: _, h1, _ => by simp [charListLt] at h1
  | _ :: _, [], _, h2 => by simp [charListLt] at h2
  | a :: as, b :: bs, h1, h2 => by
    simp only [charListLt, Bool.or_eq_false_iff, Bool.and_eq_false_iff,
      beq_eq_false_iff_ne, ne_eq] at h1 h2
    obtain ⟨hab, h1'⟩ := h1
    obtain ⟨hba, h2'⟩ := h2
    have hEq : a = b := charLt_connex hab hba
    subst hEq
    rcases h1' with h1' | h1'
    · exact absurd rfl h1'
    · rcases h2' with h2' | h2'
      · exact absurd rfl h2'
      · rw [charListLt_connex h1' h2']

theorem strLe_total (a b : String) : strLe a b = true ∨ strLe b a = true := by
  by_cases h : charListLt b.data a.data = true
  · right
    simp only [strLe, strLt, Bool.not_eq_true', charListLt_asymm h]
  · left
    simp only [strLe, strLt, Bool.not_eq_true']
    exact Bool.not_eq_true _ ▸ (Bool.eq_false_iff.mpr h)

theorem strLe_trans {a b c : String} (h1 : strLe a b = true)
    (h2 : strLe b c = true) : strLe a c = true := by
  simp only [strLe, strLt, Bool.not_eq_true'] at *
  by_cases hca : charListLt c.data a.data = true
  · by_cases hbc : charListLt b.data c.data = true
    · rw [charListLt_trans hbc hca] at h1
      exact absurd h1 (by simp)
    · have : b.data = c.data := charListLt_connex (Bool.eq_false_iff.mpr hbc) h2
      rw [← this] at hca
      rw [hca] at h1
      exact absurd h1 (by simp)
  · exact Bool.eq_false_iff.mpr hca

/-! ## Properties of the job sort order -/

theorem jobLe_trans {a b c : Job} (h1 : jobLe a b = true)
    (h2 : jobLe b c = true) : jobLe a c = true := by
  simp only [jobLe, Bool.or_eq_true, decide_eq_true_eq, Bool.and_eq_true,
    beq_iff_eq] at *
  rcases h1 with h1 | ⟨he1, hs1⟩ <;> rcases h2 with h2 | ⟨he2, hs2⟩
  · exact Or.inl (Nat.lt_trans h1 h2)
  · exact Or.inl (he2 ▸ h1)
  · exact Or.inl (he1 ▸ h2)
  · exact Or.inr ⟨he1.trans he2, strLe_trans hs1 hs2⟩

theorem jobLe_total (a b : Job) : (jobLe a b || jobLe b a) = true := by
  simp only [jobLe, Bool.or_eq_true, decide_eq_true_eq, Bool.and_eq_true,
    beq_iff_eq]
  rcases Nat.lt_trichotomy (boolKey a.free_to_apply)
      (boolKey b.free_to_apply) with h | h | h
  · exact Or.inl (Or.inl h)
  · rcases strLe_total a.company b.company with hs | hs
    · exact Or.inl (Or.inr ⟨h, hs⟩)
    · exact Or.inr (Or.inr ⟨h.symm, hs⟩)
  · exact Or.inr (Or.inl h)

theorem sortJobs_pairwise (jobs : List Job) :
    (sortJobs jobs).Pairwise (fun a b => jobLe a b = true) :=
  @List.sorted_mergeSort Job jobLe (fun _ _ _ h1 h2 => jobLe_trans h1 h2)
    (fun a b => jobLe_total a b) jobs

theorem sortJobs_length (jobs : List Job) :
    (sortJobs jobs).length = jobs.length :=
  List.length_mergeSort jobs

theorem boolKey_eq_zero {b : Bool} : boolKey b = 0 ↔ b = true := by
  cases b <;> simp [boolKey]

/-! ## Helper facts -/

theorem strContains_iff {l : List String} {a : String} :
    l.contains a = true ↔ a ∈ l :=
  List.elem_iff

theorem strIsEmpty_iff {s : String} : strIsEmpty s = true ↔ s = "" := by
  cases s with
  | mk data =>
    cases data with
    | nil => simp [strIsEmpty]
    | cons c cs =>
      simp only [strIsEmpty, List.isEmpty_cons]
      constructor
      · intro h
        exact absurd h (by simp)
      · intro h
        have hd := congrArg String.data h
        simp at hd

/-- C5: for every string input, `apply_host_from_url` is total (the
Python wrapper catches every exception): it returns `""` whenever the
URL parser fails, and on success it returns the network location
lowercased, with the leading `"www."` label stripped exactly when
present (one strip of four characters, nothing more). -/
theorem c5_apply_host_contract (url : String) :
    (∀ e, urlsplitNetloc url = .error e → apply_host_from_url url = "") ∧
    (∀ n, urlsplitNetloc url = .ok n →
      (strStartsWith (strToLower n) "www." = true →
        apply_host_from_url url = strDrop (strToLower n) 4) ∧
      (strStartsWith (strToLower n) "www." = false →
        apply_host_from_url url = strToLower n)) := by
  refine ⟨fun e he => by simp [apply_host_from_url, he], fun n hn => ?_⟩
  constructor <;> intro hw <;> simp [apply_host_from_url, hn, hw]

/-- Witness for C5: a host with two `www.` labels loses exactly the
first one (and keeps the lowercasing), and a URL drawing a `ValueError`
from the parser yields `""`. -/
theorem c5_apply_host_contract_witness :
    urlsplitNetloc "https://WWW.www.Example.com/x" = .ok "WWW.www.Example.com" ∧
    apply_host_from_url "https://WWW.www.Example.com/x" = "www.example.com" ∧
    urlsplitNetloc "http://[abc" = .error "Invalid IPv6 URL" ∧
    apply_host_from_url "http://[abc" = "" := by
  refine ⟨rfl, ?_,
    rfl, (c5_apply_host_contract "http://[abc").1 "Invalid IPv6 URL" rfl⟩
  have h := ((c5_apply_host_contract "https://WWW.www.Example.com/x").2
      "WWW.www.Example.com" rfl).1 (by decide)
  rw [h]
  decide

/-- C4: the decision order of `is_likely_free_apply`: empty host is not
free; otherwise an allow-listed substring of the host forces `true`
(even when a paid marker is also present); otherwise one of the paid
markers `premium`/`pay`/`subscription` forces `false`; otherwise the
default is `true`; and the empty URL classifies as not free. -/
theorem c4_free_apply_decision (url : String) :
    (apply_host_from_url url = "" → is_likely_free_apply url = false) ∧
    (apply_host_from_url url ≠ "" →
      FREE_DOMAINS.any
        (fun d => strContainsSub (apply_host_from_url url) d) = true →
      is_likely_free_apply url = true) ∧
    (apply_host_from_url url ≠ "" →
      FREE_DOMAINS.any
        (fun d => strContainsSub (apply_host_from_url url) d) = false →
      (strContainsSub (apply_host_from_url url) "premium" ||
        strContainsSub (apply_host_from_url url) "pay" ||
        strContainsSub (apply_host_from_url url) "subscription") = true →
      is_likely_free_apply url = false) ∧
    (apply_host_from_url url ≠ "" →
      FREE_DOMAINS.any
        (fun d => strContainsSub (apply_host_from_url url) d) = false →
      (strContainsSub (apply_host_from_url url) "premium" ||
        strContainsSub (apply_host_from_url url) "pay" ||
        strContainsSub (apply_host_from_url url) "subscription") = false →
      is_likely_free_apply url = true) ∧
    is_likely_free_apply "" = false := by
  refine ⟨?_, ?_, ?_, ?_, by decide⟩
  · intro h1
    have he : strIsEmpty (apply_host_from_url url) = true := strIsEmpty_iff.mpr h1
    simp [is_likely_free_apply, he]
  · intro h1 h2
    have he : strIsEmpty (apply_host_from_url url) = false := by
      rw [Bool.eq_false_iff]
      intro hc
      exact h1 (strIsEmpty_iff.mp hc)
    simp [is_likely_free_apply, he, h2]
  · intro h1 h2 h3
    have he : strIsEmpty (apply_host_from_url url) = false := by
      rw [Bool.eq_false_iff]
      intro hc
      exact h1 (strIsEmpty_iff.mp hc)
    simp [is_likely_free_apply, he, h2, h3]
  · intro h1 h2 h3
    have he : strIsEmpty (apply_host_from_url url) = false := by
      rw [Bool.eq_false_iff]
      intro hc
      exact h1 (strIsEmpty_iff.mp hc)
    simp only [Bool.or_eq_false_iff] at h3
    simp [is_likely_free_apply, he, h2, h3]

/-- Witness for C4: a host containing both an allow-listed domain and
the marker `pay` is classified free (allow-list first), a host with only
a paid marker is not, an ordinary host defaults to free, and the empty
URL has an empty host. -/
theorem c4_free_apply_decision_witness :
    is_likely_free_apply "https://pay.linkedin.com/x" = true ∧
    is_likely_free_apply "https://paywall.example.org/x" = false ∧
    is_likely_free_apply "https://nice.example.org/x" = true ∧
    is_likely_free_apply "" = false := by
  refine ⟨?_, ?_, ?_, (c4_free_apply_decision "").2.2.2.2⟩
  · exact (c4_free_apply_decision "https://pay.linkedin.com/x").2.1
      (by decide) (by decide)
  · exact (c4_free_apply_decision "https://paywall.example.org/x").2.2.1
      (by decide) (by decide) (by decide)
  · exact (c4_free_apply_decision "https://nice.example.org/x").2.2.2.1
      (by decide) (by decide) (by decide)

/-! ## Properties of the dedup loop -/

theorem dedupJobs_not_seen (seen : List String) :
    ∀ (seenLinks : List String) (jobs : List Job) (j : Job),
      j ∈ dedupJobs seen seenLinks jobs →
        ¬ j.link ∈ seen ∧ ¬ j.link ∈ seenLinks := by
  intro seenLinks jobs
  induction jobs generalizing seenLinks with
  | nil =>
    intro j h
    simp [dedupJobs] at h
  | cons k rest ih =>
    intro j h
    simp only [dedupJobs] at h
    by_cases hc : (!seenLinks.contains k.link && !seen.contains k.link) = true
    · rw [if_pos hc] at h
      simp only [Bool.and_eq_true, Bool.not_eq_true'] at hc
      rcases List.mem_cons.mp h with rfl | h'
      · refine ⟨fun hm => ?_, fun hm => ?_⟩
        · rw [strContains_iff.mpr hm] at hc
          exact Bool.false_ne_true hc.2.symm
        · rw [strContains_iff.mpr hm] at hc
          exact Bool.false_ne_true hc.1.symm
      · have hrec := ih (k.link :: seenLinks) j h'
        exact ⟨hrec.1, fun hm => hrec.2 (List.mem_cons_of_mem _ hm)⟩
    · rw [if_neg hc] at h
      exact ih seenLinks j h

theorem dedupJobs_filter (seen : List String) (L : String)
    (hL : ¬ L ∈ seen) :
    ∀ (seenLinks : List String) (jobs : List Job),
      (dedupJobs seen seenLinks jobs).filter (fun j => j.link == L) =
        if L ∈ seenLinks then []
        else ((jobs.filter (fun j => j.link == L)).take 1) := by
  intro seenLinks jobs
  induction jobs generalizing seenLinks with
  | nil => simp [dedupJobs]
  | cons k rest ih =>
    simp only [dedupJobs]
    by_cases hc : (!seenLinks.contains k.link && !seen.contains k.link) = true
    · rw [if_pos hc]
      simp only [Bool.and_eq_true, Bool.not_eq_true'] at hc
      have hkSL : ¬ k.link ∈ seenLinks := by
        intro hm
        rw [strContains_iff.mpr hm] at hc
        exact Bool.false_ne_true hc.1.symm
      by_cases hkL : k.link = L
      · subst hkL
        rw [List.filter_cons_of_pos (by simp), List.filter_cons_of_pos (by simp)]
        rw [ih (k.link :: seenLinks)]
        rw [if_pos (List.mem_cons_self _ _), if_neg hkSL]
        simp
      · rw [List.filter_cons_of_neg (by simp [hkL]),
          List.filter_cons_of_neg (by simp [hkL])]
        rw [ih (k.link :: seenLinks)]
        by_cases hLs : L ∈ seenLinks
        · rw [if_pos (List.mem_cons_of_mem _ hLs), if_pos hLs]
        · rw [if_neg (by
            simp only [List.mem_cons, not_or]
            exact ⟨fun h => hkL h.symm, hLs⟩), if_neg hLs]
    · rw [if_neg hc]
      rw [ih seenLinks]
      simp only [Bool.and_eq_true, Bool.not_eq_true', not_and] at hc
      by_cases hkL : k.link = L
      · subst hkL
        have hSL : k.link ∈ seenLinks := by
          by_cases hx : k.link ∈ seenLinks
          · exact hx
          · exfalso
            have hxf : seenLinks.contains k.link = false := by
              rw [Bool.eq_false_iff]
              intro hcc
              exact hx (strContains_iff.mp hcc)
            have hns := hc hxf
            have hseen : seen.contains k.link = true := by
              rcases Bool.eq_false_or_eq_true (seen.contains k.link) with hb | hb
              · exact hb
              · exact absurd hb hns
            exact hL (strContains_iff.mp hseen)
        rw [if_pos hSL, if_pos hSL]
      · rw [List.filter_cons_of_neg (by simp [hkL])]

theorem dedupJobs_sublist (seen : List String) :
    ∀ (seenLinks : List String) (jobs : List Job),
      (dedupJobs seen seenLinks jobs).Sublist jobs := by
  intro seenLinks jobs
  induction jobs generalizing seenLinks with
  | nil => simp [dedupJobs]
  | cons k rest ih =>
    simp only [dedupJobs]
    by_cases hc : (!seenLinks.contains k.link && !seen.contains k.link) = true
    · rw [if_pos hc]
      exact List.Sublist.cons₂ k (ih (k.link :: seenLinks))
    · rw [if_neg hc]
      exact List.Sublist.cons k (ih seenLinks)

/-! ## Aggregator correctness -/

theorem collectJobs_eq (outcomes : List SourceOutcome) :
    collectJobs outcomes = (outcomes.map outcomeJobs).flatten := by
  have hgen : ∀ (l : List SourceOutcome) (acc : List Job),
      l.foldl (fun acc o => acc ++ outcomeJobs o) acc =
        acc ++ (l.map outcomeJobs).flatten := by
    intro l
    induction l with
    | nil => intro acc; simp
    | cons o t ih =>
      intro acc
      simp only [List.foldl_cons, List.map_cons, List.flatten_cons]
      rw [ih (acc ++ outcomeJobs o), List.append_assoc]
  simpa using hgen outcomes []

theorem fetch_all_jobs_ok (outcomes : List SourceOutcome)
    (seen : List String) (h : collectJobs outcomes ≠ []) :
    fetch_all_jobs outcomes seen =
      .ok (dedupJobs seen [] (collectJobs outcomes)) := by
  simp only [fetch_all_jobs]
  rw [if_neg (by simpa using h)]

theorem fetch_all_jobs_empty (outcomes : List SourceOutcome)
    (seen : List String) (h : collectJobs outcomes = []) :
    fetch_all_jobs outcomes seen = .error "No jobs found from any source." := by
  simp [fetch_all_jobs, h]

/-- C1: whenever `fetch_all_jobs` succeeds, its output drops every job
whose link is in the prior seen-set, and for every other link it keeps
exactly one job — the first occurrence, in source order (the output is a
sublist of the concatenated fetch results, and its jobs with link `L`
are exactly the first of the fetched jobs with link `L`). -/
theorem c1_aggregator_dedup (outcomes : List SourceOutcome)
    (seen : List String) (result : List Job)
    (h : fetch_all_jobs outcomes seen = .ok result) :
    (∀ j ∈ result, ¬ j.link ∈ seen) ∧
    (∀ L, ¬ L ∈ seen →
      result.filter (fun j => j.link == L) =
        ((collectJobs outcomes).filter (fun j => j.link == L)).take 1) ∧
    result.Sublist (collectJobs outcomes) := by
  have hres : result = dedupJobs seen [] (collectJobs outcomes) := by
    by_cases he : collectJobs outcomes = []
    · rw [fetch_all_jobs_empty outcomes seen he] at h
      cases h
    · rw [fetch_all_jobs_ok outcomes seen he] at h
      exact (Except.ok.inj h).symm
  subst hres
  refine ⟨?_, ?_, dedupJobs_sublist seen [] _⟩
  · intro j hj
    exact (dedupJobs_not_seen seen [] _ j hj).1
  · intro L hL
    rw [dedupJobs_filter seen L hL []]
    simp

/-- Witness for C1: two fetched jobs share a link, a third job's link is
already in the seen-set; the aggregate keeps only the first of the
duplicates and drops the seen one. -/
theorem c1_aggregator_dedup_witness :
    (fetch_all_jobs
        [.ok [{ company := "A1", title := "T1", link := "a",
                keywords := [], skills := [], apply_host := "",
                free_to_apply := true },
              { company := "A2", title := "T2", link := "a",
                keywords := [], skills := [], apply_host := "",
                free_to_apply := true }],
         .ok [{ company := "B", title := "T3", link := "b",
                keywords := [], skills := [], apply_host := "",
                free_to_apply := false }]] ["b"]) =
      .ok [{ company := "A1", title := "T1", link := "a",
             keywords := [], skills := [], apply_host := "",
             free_to_apply := true }] ∧
    (∀ j ∈ [({ company := "A1", title := "T1", link := "a",
               keywords := [], skills := [], apply_host := "",
               free_to_apply := true } : Job)], ¬ j.link ∈ ["b"]) := by
  constructor
  · rfl
  · have h := (c1_aggregator_dedup
      [.ok [{ company := "A1", title := "T1", link := "a",
              keywords := [], skills := [], apply_host := "",
              free_to_apply := true },
            { company := "A2", title := "T2", link := "a",
              keywords := [], skills := [], apply_host := "",
              free_to_apply := true }],
       .ok [{ company := "B", title := "T3", link := "b",
              keywords := [], skills := [], apply_host := "",
              free_to_apply := false }]] ["b"]
      [{ company := "A1", title := "T1", link := "a",
         keywords := [], skills := [], apply_host := "",
         free_to_apply := true }] rfl).1
    exact h

/-- A small concrete job for witnesses. -/
def wJob (c l : String) (f : Bool) : Job :=
  { company := c, title := "T", link := l, keywords := [], skills := [],
    apply_host := "", free_to_apply := f }

/-- C6: a source whose fetcher raised contributes exactly what an empty
result would (caught and converted, never aborting the run), the
aggregate is the concatenation of all non-failing sources' jobs in
source order, every job of a non-failing source is collected, and the
run succeeds whenever at least one source yields a job. -/
theorem c6_fetcher_failure_isolated (pre post : List SourceOutcome)
    (e : String) (seen : List String) (outcomes : List SourceOutcome) :
    fetch_all_jobs (pre ++ .error e :: post) seen =
      fetch_all_jobs (pre ++ .ok [] :: post) seen ∧
    collectJobs outcomes = (outcomes.map outcomeJobs).flatten ∧
    (∀ js : List Job, .ok js ∈ outcomes → ∀ j ∈ js, j ∈ collectJobs outcomes) ∧
    ((∃ js : List Job, .ok js ∈ outcomes ∧ js ≠ []) →
      ∃ r, fetch_all_jobs outcomes seen = .ok r) := by
  refine ⟨?_, collectJobs_eq outcomes, ?_, ?_⟩
  · have hcoll : collectJobs (pre ++ .error e :: post) =
        collectJobs (pre ++ .ok [] :: post) := by
      rw [collectJobs_eq, collectJobs_eq]
      simp [outcomeJobs]
    simp only [fetch_all_jobs, hcoll]
  · intro js hjs j hj
    rw [collectJobs_eq]
    exact List.mem_flatten.mpr
      ⟨js, List.mem_map.mpr ⟨.ok js, hjs, rfl⟩, hj⟩
  · rintro ⟨js, hjs, hne⟩
    obtain ⟨j, hj⟩ := List.exists_mem_of_ne_nil js hne
    have hmem : j ∈ collectJobs outcomes := by
      rw [collectJobs_eq]
      exact List.mem_flatten.mpr
        ⟨js, List.mem_map.mpr ⟨.ok js, hjs, rfl⟩, hj⟩
    exact ⟨_, fetch_all_jobs_ok outcomes seen
      (List.ne_nil_of_mem hmem)⟩

/-- Witness for C6, the spec's scenario A over five sources: sources
return 2 jobs, an error, 3 jobs, an error and 0 jobs; the errors count
as empty results and the run succeeds with 5 jobs collected. -/
theorem c6_fetcher_failure_isolated_witness :
    fetch_all_jobs
        [.ok [wJob "A" "a" true, wJob "B" "b" true], .error "network error",
         .ok [wJob "C" "c" true, wJob "D" "d" true, wJob "E" "e" true],
         .error "parse error", .ok []] [] =
      fetch_all_jobs
        [.ok [wJob "A" "a" true, wJob "B" "b" true], .ok [],
         .ok [wJob "C" "c" true, wJob "D" "d" true, wJob "E" "e" true],
         .error "parse error", .ok []] [] ∧
    (∃ r, fetch_all_jobs
        [.ok [wJob "A" "a" true, wJob "B" "b" true], .error "network error",
         .ok [wJob "C" "c" true, wJob "D" "d" true, wJob "E" "e" true],
         .error "parse error", .ok []] [] = .ok r) ∧
    fetch_all_jobs
        [.ok [wJob "A" "a" true, wJob "B" "b" true], .error "network error",
         .ok [wJob "C" "c" true, wJob "D" "d" true, wJob "E" "e" true],
         .error "parse error", .ok []] [] =
      .ok [wJob "A" "a" true, wJob "B" "b" true, wJob "C" "c" true,
           wJob "D" "d" true, wJob "E" "e" true] := by
  refine ⟨?_, ?_, rfl⟩
  · exact (c6_fetcher_failure_isolated
      [.ok [wJob "A" "a" true, wJob "B" "b" true]]
      [.ok [wJob "C" "c" true, wJob "D" "d" true, wJob "E" "e" true],
       .error "parse error", .ok []] "network error" [] []).1
  · exact (c6_fetcher_failure_isolated [] [] "x" []
      [.ok [wJob "A" "a" true, wJob "B" "b" true], .error "network error",
       .ok [wJob "C" "c" true, wJob "D" "d" true, wJob "E" "e" true],
       .error "parse error", .ok []]).2.2.2
      ⟨[wJob "A" "a" true, wJob "B" "b" true],
       List.mem_cons_self _ _, by simp⟩

/-! ## Run controller -/

theorem mem_unionLinks {seen links : List String} {l : String} :
    l ∈ unionLinks seen links ↔ l ∈ seen ∨ l ∈ links := by
  simp only [unionLinks, List.mem_append, List.mem_filter]
  constructor
  · rintro (h | ⟨h, _⟩)
    · exact Or.inl h
    · exact Or.inr h
  · rintro (h | h)
    · exact Or.inl h
    · by_cases hs : l ∈ seen
      · exact Or.inl hs
      · refine Or.inr ⟨h, ?_⟩
        simp only [Bool.not_eq_true']
        rw [Bool.eq_false_iff]
        intro hc
        exact hs (strContains_iff.mp hc)

theorem dedupJobs_all_seen (seen : List String) :
    ∀ (seenLinks : List String) (jobs : List Job),
      (∀ j ∈ jobs, j.link ∈ seen) → dedupJobs seen seenLinks jobs = [] := by
  intro seenLinks jobs
  induction jobs generalizing seenLinks with
  | nil => intro _; simp [dedupJobs]
  | cons k rest ih =>
    intro hall
    simp only [dedupJobs]
    have hk : seen.contains k.link = true :=
      strContains_iff.mpr (hall k (List.mem_cons_self _ _))
    have hcond : ¬ (!seenLinks.contains k.link && !seen.contains k.link) = true := by
      rw [Bool.and_eq_true]
      rintro ⟨-, hcc⟩
      rw [hk] at hcc
      simp at hcc
    rw [if_neg hcond]
    exact ih seenLinks (fun j hj => hall j (List.mem_cons_of_mem _ hj))

/-- C2: the exit/persistence contract of `main`: nothing fetched at all
means exit 1 with the seen-set file untouched; something fetched but
every link already seen means a quiet success (exit 0, nothing rendered,
nothing sent, file untouched); a failed send means exit 1 with the file
untouched; and only a successful send persists the seen-set, as the
union of the loaded set and the links of the jobs sent. -/
theorem c2_run_controller (outcomes : List SourceOutcome) (seen : List String)
    (today : String) (dryRun : Bool) (user pw : Option String) (tOk : Bool) :
    (collectJobs outcomes = [] →
      (mainRun outcomes seen today dryRun user pw tOk).exitCode = 1 ∧
      (mainRun outcomes seen today dryRun user pw tOk).savedSeen = none) ∧
    (collectJobs outcomes ≠ [] →
      (∀ j ∈ collectJobs outcomes, j.link ∈ seen) →
      mainRun outcomes seen today dryRun user pw tOk =
        { exitCode := 0, savedSeen := none, renderedHtml := none,
          sendCalled := false, connectAttempted := false }) ∧
    (dedupJobs seen [] (collectJobs outcomes) ≠ [] →
      (send_email dryRun user pw tOk).succeeded = false →
      (mainRun outcomes seen today dryRun user pw tOk).exitCode = 1 ∧
      (mainRun outcomes seen today dryRun user pw tOk).savedSeen = none) ∧
    (dedupJobs seen [] (collectJobs outcomes) ≠ [] →
      (send_email dryRun user pw tOk).succeeded = true →
      (mainRun outcomes seen today dryRun user pw tOk).exitCode = 0 ∧
      (mainRun outcomes seen today dryRun user pw tOk).savedSeen =
        some (unionLinks seen
          ((dedupJobs seen [] (collectJobs outcomes)).map (fun j => j.link))) ∧
      (∀ l, l ∈ unionLinks seen
          ((dedupJobs seen [] (collectJobs outcomes)).map (fun j => j.link)) ↔
        l ∈ seen ∨
        l ∈ (dedupJobs seen [] (collectJobs outcomes)).map (fun j => j.link))) := by
  refine ⟨?_, ?_, ?_, ?_⟩
  · intro h
    rw [mainRun, fetch_all_jobs_empty outcomes seen h]
    exact ⟨rfl, rfl⟩
  · intro h1 h2
    rw [mainRun, fetch_all_jobs_ok outcomes seen h1,
      dedupJobs_all_seen seen [] _ h2]
    rfl
  · intro hd hsf
    have hcol : collectJobs outcomes ≠ [] := by
      intro hc
      exact hd (by rw [hc]; rfl)
    have hne : (dedupJobs seen [] (collectJobs outcomes)).isEmpty = false := by
      rw [Bool.eq_false_iff]
      intro hie
      exact hd (List.isEmpty_iff.mp hie)
    rw [mainRun, fetch_all_jobs_ok outcomes seen hcol]
    simp only [hne, Bool.false_eq_true, if_false, hsf]
    exact ⟨by trivial, by trivial⟩
  · intro hd hst
    have hcol : collectJobs outcomes ≠ [] := by
      intro hc
      exact hd (by rw [hc]; rfl)
    have hne : (dedupJobs seen [] (collectJobs outcomes)).isEmpty = false := by
      rw [Bool.eq_false_iff]
      intro hie
      exact hd (List.isEmpty_iff.mp hie)
    rw [mainRun, fetch_all_jobs_ok outcomes seen hcol]
    simp only [hne, Bool.false_eq_true, if_false, hst, if_true]
    exact ⟨by trivial, by trivial, fun l => mem_unionLinks⟩

theorem mainRun_send_failed (outcomes : List SourceOutcome)
    (seen : List String) (today : String) (dryRun : Bool)
    (user pw : Option String) (tOk : Bool)
    (hd : dedupJobs seen [] (collectJobs outcomes) ≠ [])
    (hsf : (send_email dryRun user pw tOk).succeeded = false) :
    (mainRun outcomes seen today dryRun user pw tOk).exitCode = 1 ∧
    (mainRun outcomes seen today dryRun user pw tOk).savedSeen = none := by
  have hcol : collectJobs outcomes ≠ [] := by
    intro hc
    exact hd (by rw [hc]; rfl)
  have hne : (dedupJobs seen [] (collectJobs outcomes)).isEmpty = false := by
    rw [Bool.eq_false_iff]
    intro hie
    exact hd (List.isEmpty_iff.mp hie)
  rw [mainRun, fetch_all_jobs_ok outcomes seen hcol]
  simp only [hne, Bool.false_eq_true, if_false, hsf]
  exact ⟨by trivial, by trivial⟩

theorem mainRun_send_ok (outcomes : List SourceOutcome)
    (seen : List String) (today : String) (dryRun : Bool)
    (user pw : Option String) (tOk : Bool)
    (hd : dedupJobs seen [] (collectJobs outcomes) ≠ [])
    (hst : (send_email dryRun user pw tOk).succeeded = true) :
    (mainRun outcomes seen today dryRun user pw tOk).exitCode = 0 ∧
    (mainRun outcomes seen today dryRun user pw tOk).savedSeen =
      some (unionLinks seen
        ((dedupJobs seen [] (collectJobs outcomes)).map (fun j => j.link))) := by
  have hcol : collectJobs outcomes ≠ [] := by
    intro hc
    exact hd (by rw [hc]; rfl)
  have hne : (dedupJobs seen [] (collectJobs outcomes)).isEmpty = false := by
    rw [Bool.eq_false_iff]
    intro hie
    exact hd (List.isEmpty_iff.mp hie)
  rw [mainRun, fetch_all_jobs_ok outcomes seen hcol]
  simp only [hne, Bool.false_eq_true, if_false, hst, if_true]
  exact ⟨by trivial, by trivial⟩

/-- Witness for C2, one concrete run per branch: no job fetched exits 1;
one fetched job whose link is already seen is a quiet no-op; a failed
send (live mode without credentials) exits 1 without persisting; a
successful dry-run send exits 0 and persists the union. -/
theorem c2_run_controller_witness :
    (mainRun [] [] "2025-01-01" true none none true).exitCode = 1 ∧
    mainRun [.ok [wJob "A" "a" true]] ["a"] "2025-01-01" true none none true =
      { exitCode := 0, savedSeen := none, renderedHtml := none,
        sendCalled := false, connectAttempted := false } ∧
    ((mainRun [.ok [wJob "A" "a" true]] [] "2025-01-01" false none none
        true).exitCode = 1 ∧
      (mainRun [.ok [wJob "A" "a" true]] [] "2025-01-01" false none none
        true).savedSeen = none) ∧
    (mainRun [.ok [wJob "A" "a" true]] ["b"] "2025-01-01" true none none
        true).savedSeen = some (unionLinks ["b"] ["a"]) := by
  refine ⟨((c2_run_controller [] [] "2025-01-01" true none none true).1
      rfl).1, ?_, ?_, ?_⟩
  · exact (c2_run_controller [.ok [wJob "A" "a" true]] ["a"] "2025-01-01"
      true none none true).2.1 (by decide) (by decide)
  · exact (c2_run_controller [.ok [wJob "A" "a" true]] [] "2025-01-01"
      false none none true).2.2.1 (by decide) (by decide)
  · exact ((c2_run_controller [.ok [wJob "A" "a" true]] ["b"] "2025-01-01"
      true none none true).2.2.2 (by decide) (by decide)).2.1

/-- C7: in dry-run mode `send_email` always succeeds, prints the
preview and never touches the network, whatever the credentials or the
transport would do; in live mode an absent (or empty) credential fails
the send before any connection is attempted; a transport failure with
good credentials fails the send after connecting; and a failed send
makes the run exit 1. -/
theorem c7_notifier_modes (user pw : Option String) (tOk : Bool) :
    send_email true user pw tOk =
      { succeeded := true, connectAttempted := false,
        previewPrinted := true } ∧
    ((falsyCred user || falsyCred pw) = true →
      send_email false user pw tOk =
        { succeeded := false, connectAttempted := false,
          previewPrinted := false }) ∧
    ((falsyCred user || falsyCred pw) = false → tOk = false →
      (send_email false user pw tOk).succeeded = false ∧
      (send_email false user pw tOk).connectAttempted = true) ∧
    (∀ (outcomes : List SourceOutcome) (seen : List String) (today : String),
      dedupJobs seen [] (collectJobs outcomes) ≠ [] →
      (send_email false user pw tOk).succeeded = false →
      (mainRun outcomes seen today false user pw tOk).exitCode = 1) := by
  refine ⟨rfl, ?_, ?_, ?_⟩
  · intro h
    simp [send_email, h]
  · intro h ht
    simp [send_email, h, ht]
  · intro outcomes seen today hd hsf
    exact (mainRun_send_failed outcomes seen today false user pw tOk
      hd hsf).1

/-- Witness for C7: dry-run succeeds with no connection even with no
credentials and a broken transport; an empty `EMAIL_USER` fails before
connecting; a transport failure with credentials present fails the
send; and that failure exits the run with 1. -/
theorem c7_notifier_modes_witness :
    send_email true none none false =
      { succeeded := true, connectAttempted := false,
        previewPrinted := true } ∧
    send_email false (some "") (some "secret") true =
      { succeeded := false, connectAttempted := false,
        previewPrinted := false } ∧
    (send_email false (some "user") (some "secret") false).succeeded = false ∧
    (mainRun [.ok [wJob "A" "a" true]] [] "2025-01-01" false (some "user")
      (some "secret") false).exitCode = 1 := by
  refine ⟨(c7_notifier_modes none none false).1,
    (c7_notifier_modes (some "") (some "secret") true).2.1 (by decide),
    ((c7_notifier_modes (some "user") (some "secret") false).2.2.1
      (by decide) rfl).1,
    (c7_notifier_modes (some "user") (some "secret") false).2.2.2
      [.ok [wJob "A" "a" true]] [] "2025-01-01" (by decide) (by decide)⟩

/-- C10 (implicit frame effect): a dry run does not suppress seen-set
persistence — `send_email` succeeds in dry-run mode, so `main` goes on
to write the union of the loaded seen-set and the links of the jobs it
previewed, and exits 0; those jobs will not be offered again. -/
theorem c10_dry_run_persists (outcomes : List SourceOutcome)
    (seen : List String) (today : String) (user pw : Option String)
    (tOk : Bool) (jobs : List Job)
    (h : fetch_all_jobs outcomes seen = .ok jobs) (hne : jobs ≠ []) :
    (mainRun outcomes seen today true user pw tOk).savedSeen =
      some (unionLinks seen (jobs.map (fun j => j.link))) ∧
    (∀ j ∈ jobs, j.link ∈ unionLinks seen (jobs.map (fun j => j.link))) ∧
    (mainRun outcomes seen today true user pw tOk).exitCode = 0 := by
  have hjobs : jobs = dedupJobs seen [] (collectJobs outcomes) := by
    by_cases he : collectJobs outcomes = []
    · rw [fetch_all_jobs_empty outcomes seen he] at h
      cases h
    · rw [fetch_all_jobs_ok outcomes seen he] at h
      exact (Except.ok.inj h).symm
  have hd : dedupJobs seen [] (collectJobs outcomes) ≠ [] := hjobs ▸ hne
  have hmr := mainRun_send_ok outcomes seen today true user pw tOk hd rfl
  refine ⟨?_, ?_, hmr.1⟩
  · rw [hmr.2, hjobs]
  · intro j hj
    exact mem_unionLinks.mpr (Or.inr (List.mem_map.mpr ⟨j, hj, rfl⟩))

/-- Witness for C10: a dry run over one fresh job persists the union of
the old seen-set and that job's link. -/
theorem c10_dry_run_persists_witness :
    (mainRun [.ok [wJob "A" "a" true]] ["b"] "2025-01-01" true none none
      false).savedSeen = some (unionLinks ["b"] ["a"]) ∧
    "a" ∈ unionLinks ["b"] ["a"] := by
  have h := c10_dry_run_persists [.ok [wJob "A" "a" true]] ["b"]
    "2025-01-01" none none false [wJob "A" "a" true] rfl (by decide)
  exact ⟨h.1, h.2.1 (wJob "A" "a" true) (List.mem_cons_self _ _)⟩

/-! ## Per-source caps -/

theorem flatMap_take_length_le {α β : Type} (l : List α) (f : α → List β)
    (n m : Nat) (h : ∀ a, (f a).length ≤ m) :
    ((l.take n).flatMap f).length ≤ n * m := by
  induction l generalizing n with
  | nil => simp
  | cons a t ih =>
    cases n with
    | zero => simp
    | succ k =>
      simp only [List.take_succ_cons, List.flatMap_cons, List.length_append]
      calc (f a).length + ((t.take k).flatMap f).length
          ≤ m + k * m := Nat.add_le_add (h a) (ih k)
        _ = (k + 1) * m := by ring

/-- The anchor used by the C8 counterexample. -/
def wwrCexAnchor : WwrAnchor :=
  { href := some "https://example.org/a", title := some "T",
    company := some "C" }

/-- Three full sections of five anchors each. -/
def wwrCexInput : List (List WwrAnchor) :=
  List.replicate 3 (List.replicate 5 wwrCexAnchor)

/-- Counterexample to C8: `fetch_wwr_jobs` takes up to 5 anchors from
each of up to 3 sections, so three full sections yield 15 jobs — more
than the claimed cap of 5 per fetcher. -/
theorem c8_per_source_cap_counterexample :
    (fetch_wwr_jobs wwrCexInput).length = 15 ∧
    ¬ (fetch_wwr_jobs wwrCexInput).length ≤ 5 := by
  constructor <;> decide

/-- C8 amended: every fetcher is capped, but the caps differ — the two
API fetchers and the two single-list scrapers return at most 5 jobs,
while `fetch_wwr_jobs` returns at most 15 (5 anchors from each of 3
sections). -/
theorem c8_per_source_caps (d1 : List ArbeitnowRecord)
    (d2 : List RemotiveRecord) (cs : List RemoteOkCard)
    (js : List JsJobbsCard) (secs : List (List WwrAnchor)) :
    (fetch_arbeitnow_jobs d1).length ≤ 5 ∧
    (fetch_remotive_jobs d2).length ≤ 5 ∧
    (fetch_remoteok_jobs cs).length ≤ 5 ∧
    (fetch_jsjobbs_jobs js).length ≤ 5 ∧
    (fetch_wwr_jobs secs).length ≤ 15 := by
  refine ⟨List.length_take_le _ _, List.length_take_le _ _, ?_, ?_, ?_⟩
  · exact le_trans (List.length_filterMap_le _ _) (List.length_take_le _ _)
  · show ((js.take 5).map _).length ≤ 5
    rw [List.length_map]
    exact List.length_take_le _ _
  · have hbound := flatMap_take_length_le secs
      (fun sec => (sec.take 5).filterMap (fun a =>
        let href0 := a.href.getD ""
        let href := if strStartsWith href0 "http" then href0
                    else "https://weworkremotely.com" ++ href0
        let title := a.title.getD ""
        let company := a.company.getD ""
        if strIsEmpty title then none
        else
          some ({ company := if strIsEmpty company then "Unknown" else company,
                  title := title, link := href,
                  keywords := ["frontend", "remote", "javascript"],
                  skills := ["React", "Vue", "CSS", "HTML"],
                  apply_host := apply_host_from_url href,
                  free_to_apply := is_likely_free_apply href } : Job))) 3 5
      (fun sec => le_trans (List.length_filterMap_le _ _)
        (List.length_take_le _ _))
    exact hbound

/-! ## Renderer: date dependence and row order -/

set_option maxRecDepth 40000 in
/-- Counterexample to C9: `create_html_table` interpolates the current
date into the digest heading, so two calls with the same (empty) job
collection on different dates return different strings — the renderer
is not a pure function of the job collection alone. -/
theorem c9_purity_counterexample :
    create_html_table "2025-06-01" [] ≠ create_html_table "2025-06-02" [] := by
  simp only [create_html_table, htmlRows, sortJobs, List.mergeSort_nil]
  decide

/-- C9 amended: `create_html_table` is deterministic given the current
date, and the ambient state it reads is exactly the date: its output is
a fixed prefix, then the date, then a remainder computed from the job
collection alone, so two calls with the same jobs and the same date
return the identical string. -/
theorem c9_renderer_determinism (today : String) (jobs : List Job) :
    create_html_table today jobs =
      htmlDocPre ++ (today ++ htmlAfterDate jobs) := by
  simp only [create_html_table, htmlAfterDate, String.append_assoc]

/-- C3: the digest contains exactly one row per input job; row `k` is
the `(k+1)`-numbered rendering of the `k`-th sorted job (numbering from
1 in sorted order); in the sorted order every free-to-apply job
precedes every maybe-paid one and, within a group, companies are
non-decreasing in the code-point lexicographic order; and the document
is the template around those rows. -/
theorem c3_digest_rows_sorted (today : String) (jobs : List Job) :
    (htmlRows jobs).length = jobs.length ∧
    (∀ k : Nat, (htmlRows jobs)[k]? =
      ((sortJobs jobs)[k]?).map (fun j => renderRow (k + 1) j)) ∧
    (∀ i j : Nat, ∀ a b : Job, i < j →
      (sortJobs jobs)[i]? = some a → (sortJobs jobs)[j]? = some b →
      (b.free_to_apply = true → a.free_to_apply = true) ∧
      (a.free_to_apply = b.free_to_apply →
        strLe a.company b.company = true)) ∧
    create_html_table today jobs =
      htmlDocPre ++ today ++ htmlMid1 ++ toString (sortJobs jobs).length ++
      htmlMid2 ++ concatRows (htmlRows jobs) ++ htmlPost := by
  refine ⟨?_, ?_, ?_, rfl⟩
  · simp [htmlRows, sortJobs_length]
  · intro k
    cases hk : (sortJobs jobs)[k]? with
    | none => simp [htmlRows, List.getElem?_enumFrom, hk]
    | some a => simp [htmlRows, List.getElem?_enumFrom, hk, Nat.add_comm]
  · intro i j a b hij ha hb
    obtain ⟨hi, hia⟩ := List.getElem?_eq_some_iff.mp ha
    obtain ⟨hj, hjb⟩ := List.getElem?_eq_some_iff.mp hb
    have hRel := List.pairwise_iff_getElem.mp (sortJobs_pairwise jobs)
      i j hi hj hij
    rw [hia, hjb] at hRel
    simp only [jobLe, Bool.or_eq_true, decide_eq_true_eq, Bool.and_eq_true,
      beq_iff_eq] at hRel
    constructor
    · intro hbf
      have hkb : boolKey b.free_to_apply = 0 := by simp [boolKey, hbf]
      rcases hRel with h | ⟨h, _⟩
      · rw [hkb] at h
        exact absurd h (Nat.not_lt_zero _)
      · rw [hkb] at h
        exact boolKey_eq_zero.mp h
    · intro hff
      rcases hRel with h | ⟨_, hs⟩
      · rw [hff] at h
        exact absurd h (Nat.lt_irrefl _)
      · exact hs

/-- Witness for C3: on a two-job collection that is already in sort
order, the digest has one row per job and the companies of the two
free-to-apply jobs are in non-decreasing order. -/
theorem c3_digest_rows_sorted_witness :
    (htmlRows [wJob "A" "a" true, wJob "B" "b" true]).length = 2 ∧
    strLe (wJob "A" "a" true).company (wJob "B" "b" true).company = true := by
  have hs : sortJobs [wJob "A" "a" true, wJob "B" "b" true] =
      [wJob "A" "a" true, wJob "B" "b" true] :=
    List.mergeSort_of_sorted (by decide)
  have h := c3_digest_rows_sorted "2025-01-01"
    [wJob "A" "a" true, wJob "B" "b" true]
  refine ⟨h.1.trans rfl, ?_⟩
  exact (h.2.2.1 0 1 (wJob "A" "a" true) (wJob "B" "b" true) (by decide)
    (by rw [hs]; decide) (by rw [hs]; decide)).2 rfl
